import Mathlib

/-!
Shallow embedding of the 3D bin-packing library `bp3d` (src/bp3d.go).

Modelling choices, all translated from the source:
* `float64` becomes `ℚ`.  Every concrete input used below keeps all
  comparisons at a distance of at least 1/200 from the 1/100 tolerance
  and from every containment boundary, so the rational model and the
  IEEE-754 execution decide every branch identically on those inputs.
* Go pointers to `Item`/`Bin` become indices (`ItemId`/`BinId`) into
  stores held in a `PackerSt` record; in-place mutation becomes
  functional update of the store, which preserves Go's aliasing
  behaviour (an item mutated by `PutItem` changes for every list that
  references it).
* Go slices are modelled as values (append copies); `sort.Sort` (an
  unstable sort) is modelled as a stable insertion sort by the same
  `Less` predicates.  No concrete input below has tied keys whose
  relative order matters.
* The recursion of `packToBin` and the unbounded `for` loops of
  `Pack` take an explicit fuel; `none` means the computation did not
  finish within the given fuel.  All recursion is structural on the
  fuel so that every definition evaluates in the kernel.
-/

namespace BP3D

inductive RotationType where
  | WHD | HWD | HDW | DHW | DWH | WDH
deriving DecidableEq, Inhabited

inductive Axis where
  | WidthAxis | HeightAxis | DepthAxis
deriving DecidableEq, Inhabited

/-- Both Go types `Pivot` and `Dimension` are `[3]float64`. -/
structure Triple where
  x : ℚ
  y : ℚ
  z : ℚ
deriving DecidableEq, Inhabited

abbrev Pivot := Triple
abbrev Dimension := Triple

def Triple.get (t : Triple) : Axis → ℚ
  | .WidthAxis => t.x
  | .HeightAxis => t.y
  | .DepthAxis => t.z

def startPosition : Pivot := ⟨0, 0, 0⟩

/-- Go `Item`: intrinsic data plus the mutable placement scratch state. -/
structure Item where
  name : String
  width : ℚ
  height : ℚ
  depth : ℚ
  weight : ℚ
  rotationType : RotationType
  position : Pivot
deriving DecidableEq, Inhabited

/-- Go `NewItem` (RotationType and Position start zeroed). -/
def NewItem (name : String) (w h d wg : ℚ) : Item :=
  ⟨name, w, h, d, wg, .WHD, startPosition⟩

def Item.GetVolume (i : Item) : ℚ := i.width * i.height * i.depth

/-- Go `Item.GetDimension`: the rotation-applied effective extent. -/
def Item.GetDimension (i : Item) : Dimension :=
  match i.rotationType with
  | .WHD => ⟨i.width, i.height, i.depth⟩
  | .HWD => ⟨i.height, i.width, i.depth⟩
  | .HDW => ⟨i.height, i.depth, i.width⟩
  | .DHW => ⟨i.depth, i.height, i.width⟩
  | .DWH => ⟨i.depth, i.width, i.height⟩
  | .WDH => ⟨i.width, i.depth, i.height⟩

/-- The fixed tolerance 0.01 of `rectIntersect`. -/
def tolerance : ℚ := 1 / 100

/-- Go `rectIntersect`. -/
def rectIntersect (i1 i2 : Item) (x y : Axis) : Bool :=
  let d1 := i1.GetDimension
  let d2 := i2.GetDimension
  let cx1 := i1.position.get x + d1.get x / 2
  let cy1 := i1.position.get y + d1.get y / 2
  let cx2 := i2.position.get x + d2.get x / 2
  let cy2 := i2.position.get y + d2.get y / 2
  let ix := max cx1 cx2 - min cx1 cx2
  let iy := max cy1 cy2 - min cy1 cy2
  decide (tolerance < (d1.get x + d2.get x) / 2 - ix) &&
    decide (tolerance < (d1.get y + d2.get y) / 2 - iy)

/-- Go `Item.Intersect`. -/
def Item.Intersect (i1 i2 : Item) : Bool :=
  rectIntersect i1 i2 .WidthAxis .HeightAxis &&
    rectIntersect i1 i2 .HeightAxis .DepthAxis &&
    rectIntersect i1 i2 .WidthAxis .DepthAxis

abbrev ItemId := Nat
abbrev BinId := Nat

/-- Go `Bin`; `items` holds references (ids) into the item store. -/
structure Bin where
  name : String
  width : ℚ
  height : ℚ
  depth : ℚ
  maxWeight : ℚ
  items : List ItemId
deriving DecidableEq, Inhabited

/-- Go `NewBin` (empty item list). -/
def NewBin (name : String) (w h d mw : ℚ) : Bin := ⟨name, w, h, d, mw, []⟩

def Bin.GetVolume (b : Bin) : ℚ := b.width * b.height * b.depth

/-- The whole mutable heap of one `Packer` run: the two stores and the
Go `Packer` fields (`Bins`, `Items`, `UnfitItems`, `FewestBoxes`). -/
structure PackerSt where
  itemStore : List Item
  binStore : List Bin
  bins : List BinId
  pItems : List ItemId
  unfitItems : List ItemId
  fewestBoxes : Bool
deriving DecidableEq, Inhabited

def getItem (st : PackerSt) (i : ItemId) : Item := st.itemStore.getD i default

def setItemSt (st : PackerSt) (i : ItemId) (it : Item) : PackerSt :=
  { st with itemStore := st.itemStore.set i it }

def getBin (st : PackerSt) (b : BinId) : Bin := st.binStore.getD b default

def setBinSt (st : PackerSt) (b : BinId) (bn : Bin) : PackerSt :=
  { st with binStore := st.binStore.set b bn }

/-- Go `Bin.GetUsedVolume`: sum of the volumes of the packed items. -/
def GetUsedVolume (st : PackerSt) (b : BinId) : ℚ :=
  (getBin st b).items.foldl (fun acc i => acc + (getItem st i).GetVolume) 0

/-- Go `Bin.GetAvailableVolume`. -/
def GetAvailableVolume (st : PackerSt) (b : BinId) : ℚ :=
  (getBin st b).GetVolume - GetUsedVolume st b

/-- Go `Bin.GetVolumeUtilization`: no guard against a zero volume. -/
def GetVolumeUtilization (st : PackerSt) (b : BinId) : ℚ :=
  GetUsedVolume st b * 100 / (getBin st b).GetVolume

/-- The order `RotationType(0) … RotationType(5)` of the `PutItem` loop. -/
def rotationOrder : List RotationType := [.WHD, .HWD, .HDW, .DHW, .DWH, .WDH]

/-- The rotation loop body of Go `Bin.PutItem`: each iteration first
writes the candidate rotation into the item (mutation through the
pointer), reads the effective dimension back, checks containment, and
on the first containment-satisfying rotation resolves the overlap
check and returns. -/
def putItemLoop (b : BinId) (iid : ItemId) (p : Pivot) :
    PackerSt → List RotationType → PackerSt × Bool
  | st, [] => (st, false)
  | st, r :: rs =>
    let st1 := setItemSt st iid { getItem st iid with rotationType := r }
    let item := getItem st1 iid
    let d := item.GetDimension
    let bn := getBin st1 b
    if bn.width < p.x + d.x ∨ bn.height < p.y + d.y ∨ bn.depth < p.z + d.z then
      putItemLoop b iid p st1 rs
    else
      if bn.items.all fun ib => !(getItem st1 ib).Intersect item then
        (setBinSt st1 b { bn with items := bn.items ++ [iid] }, true)
      else
        (st1, false)

/-- Go `Bin.PutItem`: unconditionally records the pivot on the item,
then tries the six rotations in order. -/
def PutItem (st : PackerSt) (b : BinId) (iid : ItemId) (p : Pivot) :
    PackerSt × Bool :=
  let st0 := setItemSt st iid { getItem st iid with position := p }
  putItemLoop b iid p st0 rotationOrder

/-- Go `Packer.getBiggerBinThan`: first registered bin whose available
volume strictly exceeds that of `b`. -/
def getBiggerBinThan (st : PackerSt) (b : BinId) : Option BinId :=
  let v := GetAvailableVolume st b
  st.bins.find? fun b2 => decide (v < GetAvailableVolume st b2)

/-- The scan of Go `Packer.FindFittedBin`: trial placement at the
origin in each bin in order; a successful trial into a previously
empty bin is undone. -/
def findFittedBinLoop (iid : ItemId) :
    PackerSt → List BinId → PackerSt × Option BinId
  | st, [] => (st, none)
  | st, b :: rest =>
    match PutItem st b iid startPosition with
    | (st1, false) => findFittedBinLoop iid st1 rest
    | (st1, true) =>
      let bn := getBin st1 b
      if bn.items = [iid] then
        (setBinSt st1 b { bn with items := [] }, some b)
      else
        (st1, some b)

/-- Go `Packer.FindFittedBin`. -/
def FindFittedBin (st : PackerSt) (iid : ItemId) : PackerSt × Option BinId :=
  findFittedBinLoop iid st st.bins

/-- Go `Packer.unfitItem`: moves `p.Items[0]` to `p.UnfitItems`. -/
def unfitItem (st : PackerSt) : PackerSt :=
  match st.pItems with
  | [] => st
  | i :: rest => { st with unfitItems := st.unfitItems ++ [i], pItems := rest }

/-- The pivot built by `packToBin` from occupant `ib` for axis `pt`:
the occupant's position offset by its INTRINSIC Width/Height/Depth
(`ib.GetWidth()` etc., not the rotation-applied `GetDimension`). -/
def pivotCandidate (st : PackerSt) (pt : Axis) (ib : ItemId) : Pivot :=
  let it := getItem st ib
  match pt with
  | .WidthAxis => ⟨it.position.x + it.width, it.position.y, it.position.z⟩
  | .HeightAxis => ⟨it.position.x, it.position.y + it.height, it.position.z⟩
  | .DepthAxis => ⟨it.position.x, it.position.y, it.position.z + it.depth⟩

def axisOrder : List Axis := [.WidthAxis, .HeightAxis, .DepthAxis]

/-- Inner loop of the pivot search (`for _, ib := range b.Items`):
the pivot for each occupant is computed from the state current at
that attempt. -/
def tryAxis (b : BinId) (i : ItemId) (pt : Axis) :
    PackerSt → List ItemId → PackerSt × Bool
  | st, [] => (st, false)
  | st, ib :: rest =>
    let pv := pivotCandidate st pt ib
    match PutItem st b i pv with
    | (st1, true) => (st1, true)
    | (st1, false) => tryAxis b i pt st1 rest

/-- Outer loop of the pivot search (`for pt := 0; pt < 3; pt++`); the
occupant list is re-read from the bin for each axis. -/
def tryPivots (b : BinId) (i : ItemId) :
    PackerSt → List Axis → PackerSt × Bool
  | st, [] => (st, false)
  | st, pt :: pts =>
    match tryAxis b i pt st (getBin st b).items with
    | (st1, true) => (st1, true)
    | (st1, false) => tryPivots b i st1 pts

mutual

/-- Go `Packer.packToBin`.  `none` = out of fuel.  On success returns
the final state and the `unpacked` result.  Go would panic on an empty
`items` argument (`items[0]`); that case is modelled as stuck. -/
def packToBin (fuel : Nat) (st : PackerSt) (b : BinId) (items : List ItemId) :
    Option (PackerSt × List ItemId) :=
  match fuel with
  | 0 => none
  | fuel + 1 =>
    match items with
    | [] => none
    | i0 :: rest =>
      match PutItem st b i0 startPosition with
      | (st1, false) =>
        match getBiggerBinThan st1 b with
        | some b2 => packToBin fuel st1 b2 items
        | none => some (st1, st1.pItems)
      | (st1, true) => packItems fuel st1 b rest []

/-- The `for _, i := range items[1:]` loop of `packToBin`; `b` is the
current bin (escalation reassigns it), `unpacked` the accumulator. -/
def packItems (fuel : Nat) (st : PackerSt) (b : BinId) (pending : List ItemId)
    (unpacked : List ItemId) : Option (PackerSt × List ItemId) :=
  match fuel with
  | 0 => none
  | fuel + 1 =>
    match pending with
    | [] => some (st, unpacked)
    | i :: rest =>
      match tryPivots b i st axisOrder with
      | (st1, true) => packItems fuel st1 b rest unpacked
      | (st1, false) =>
        match escalateLoop fuel st1 b i with
        | none => none
        | some (st2, b2, true) => packItems fuel st2 b2 rest unpacked
        | some (st2, b2, false) => packItems fuel st2 b2 rest (unpacked ++ [i])

/-- The `for b2 := p.getBiggerBinThan(b); b2 != nil; …` escalation loop
of `packToBin`; returns the final current bin and whether `i` was
fitted along the chain. -/
def escalateLoop (fuel : Nat) (st : PackerSt) (b : BinId) (i : ItemId) :
    Option (PackerSt × BinId × Bool) :=
  match fuel with
  | 0 => none
  | fuel + 1 =>
    match getBiggerBinThan st b with
    | none => some (st, b, false)
    | some b2 =>
      match packToBin fuel st b2 ((getBin st b2).items ++ [i]) with
      | none => none
      | some (st1, left) =>
        if left = [] then some (st1, b2, true)
        else escalateLoop fuel st1 b2 i

end

/-- Stable insertion (ascending by bin volume) modelling
`sort.Sort(BinSlice(p.Bins))` with `Less(i,j) = vol i < vol j`. -/
def insertBinAsc (st : PackerSt) (b : BinId) : List BinId → List BinId
  | [] => [b]
  | c :: cs =>
    if (getBin st b).GetVolume < (getBin st c).GetVolume then b :: c :: cs
    else c :: insertBinAsc st b cs

def sortBinsAsc (st : PackerSt) (l : List BinId) : List BinId :=
  l.foldr (insertBinAsc st) []

/-- Stable insertion (descending by item volume) modelling
`sort.Sort(ItemSlice(p.Items))` with `Less(i,j) = vol i > vol j`. -/
def insertItemDesc (st : PackerSt) (i : ItemId) : List ItemId → List ItemId
  | [] => [i]
  | c :: cs =>
    if (getItem st c).GetVolume < (getItem st i).GetVolume then i :: c :: cs
    else c :: insertItemDesc st i cs

def sortItemsDesc (st : PackerSt) (l : List ItemId) : List ItemId :=
  l.foldr (insertItemDesc st) []

def itemVolumeSumOf (st : PackerSt) (l : List ItemId) : ℚ :=
  l.foldl (fun acc i => acc + (getItem st i).GetVolume) 0

def binVolumeSumOf (st : PackerSt) (l : List BinId) : ℚ :=
  l.foldl (fun acc b => acc + (getBin st b).GetVolume) 0

/-- Go error values returned by `Pack` (nil modelled as `none`). -/
inductive PackError where
  | ErrInvalidBinsVolume | ErrUnfitItemsExist | ErrNoBins | ErrNoItems
deriving DecidableEq, Inhabited

/-- First loop of the `FewestBoxes` branch of `Pack`: one pass over the
(sorted) bins, comparing each bin's volume against `ivs`, the item
volume sum computed once before the loop. -/
def fewestFirstPass (fuel : Nat) (ivs : ℚ) :
    PackerSt → List BinId → Option PackerSt
  | st, [] => some st
  | st, b :: rest =>
    if ivs ≤ (getBin st b).GetVolume ∧ st.pItems ≠ [] then
      match packToBin fuel st b st.pItems with
      | none => none
      | some (st1, left) => fewestFirstPass fuel ivs { st1 with pItems := left } rest
    else
      fewestFirstPass fuel ivs st rest

/-- The best-fit scan of the second `FewestBoxes` loop: the last bin
(in registration order) with the largest available volume that is
at least `found` so far and below `need`. -/
def findBestBin (st : PackerSt) (need : ℚ) :
    List BinId → ℚ → Option BinId → Option BinId
  | [], _, acc => acc
  | b :: rest, found, acc =>
    let av := GetAvailableVolume st b
    if found ≤ av ∧ av < need then findBestBin st need rest av (some b)
    else findBestBin st need rest found acc

/-- Second loop of the `FewestBoxes` branch of `Pack`
(`for len(p.Items) > 0 { … find best bin … }`). -/
def fewestBestFitLoop (fuel : Nat) (st : PackerSt) : Option PackerSt :=
  match fuel with
  | 0 => none
  | fuel + 1 =>
    if st.pItems = [] then some st
    else
      let need := itemVolumeSumOf st st.pItems
      match findBestBin st need st.bins 0 none with
      | none => some st
      | some fb =>
        match packToBin fuel st fb st.pItems with
        | none => none
        | some (st1, left) => fewestBestFitLoop fuel { st1 with pItems := left }

/-- Final loop of `Pack` (`for len(p.Items) > 0 { FindFittedBin … }`). -/
def greedyLoop (fuel : Nat) (st : PackerSt) : Option PackerSt :=
  match fuel with
  | 0 => none
  | fuel + 1 =>
    match st.pItems with
    | [] => some st
    | i0 :: _ =>
      match FindFittedBin st i0 with
      | (st1, none) => greedyLoop fuel (unfitItem st1)
      | (st1, some b) =>
        match packToBin fuel st1 b st1.pItems with
        | none => none
        | some (st2, left) => greedyLoop fuel { st2 with pItems := left }

/-- The body of `Pack` after the sorting and the four validation
checks have been passed. -/
def packPhases (fuel : Nat) (st : PackerSt) (ivs : ℚ) :
    Option (PackerSt × Option PackError) :=
  let phase : Option PackerSt :=
    if st.fewestBoxes then
      match fewestFirstPass fuel ivs st st.bins with
      | none => none
      | some st1 => fewestBestFitLoop fuel st1
    else
      some st
  match phase with
  | none => none
  | some st2 =>
    match greedyLoop fuel st2 with
    | none => none
    | some st3 =>
      if st3.unfitItems ≠ [] then some (st3, some .ErrUnfitItemsExist)
      else some (st3, none)

/-- Go `Packer.Pack`. -/
def Pack (fuel : Nat) (st0 : PackerSt) : Option (PackerSt × Option PackError) :=
  let st := { st0 with bins := sortBinsAsc st0 st0.bins,
                       pItems := sortItemsDesc st0 st0.pItems }
  if st.bins = [] then some (st, some .ErrNoBins)
  else if st.pItems = [] then some (st, some .ErrNoItems)
  else
    let maxVolumeItem := st.pItems.headD 0
    let maxVolumeBin := st.bins.getLastD 0
    if (getBin st maxVolumeBin).GetVolume < (getItem st maxVolumeItem).GetVolume then
      some (st, some .ErrInvalidBinsVolume)
    else
      let itemVolumeSum := itemVolumeSumOf st st.pItems
      let binVolumeSum := binVolumeSumOf st st.bins
      if binVolumeSum < itemVolumeSum then some (st, some .ErrInvalidBinsVolume)
      else packPhases fuel st itemVolumeSum

/-! ### Basic store lemmas -/

theorem getItem_setItemSt_self {st : PackerSt} {i : ItemId} {it : Item}
    (h : i < st.itemStore.length) : getItem (setItemSt st i it) i = it := by
  simp [getItem, setItemSt, List.getD_eq_getElem?_getD, List.getElem?_set_self h]

theorem getItem_setItemSt_ne {st : PackerSt} {i j : ItemId} {it : Item}
    (h : i ≠ j) : getItem (setItemSt st i it) j = getItem st j := by
  simp [getItem, setItemSt, List.getD_eq_getElem?_getD, List.getElem?_set_ne h]

theorem setItemSt_setItemSt {st : PackerSt} {i : ItemId} {a b : Item} :
    setItemSt (setItemSt st i a) i b = setItemSt st i b := by
  simp [setItemSt, List.set_set]

theorem getBin_setItemSt {st : PackerSt} {i : ItemId} {it : Item} {b : BinId} :
    getBin (setItemSt st i it) b = getBin st b := rfl

theorem length_setItemSt {st : PackerSt} {i : ItemId} {it : Item} :
    (setItemSt st i it).itemStore.length = st.itemStore.length := by
  simp [setItemSt]

theorem pItems_setItemSt {st : PackerSt} {i : ItemId} {it : Item} :
    (setItemSt st i it).pItems = st.pItems := rfl

/-! ### Claim C8: the intersection test -/

/-- The overlap predicate of one axis pair, written as the spec words
it: extent half-sum minus center distance strictly exceeds the
tolerance on both axes, with centers at pivot plus half the effective
extent. -/
def projectionOverlap (i1 i2 : Item) (x y : Axis) : Prop :=
  tolerance < (i1.GetDimension.get x + i2.GetDimension.get x) / 2 -
      |(i1.position.get x + i1.GetDimension.get x / 2) -
        (i2.position.get x + i2.GetDimension.get x / 2)| ∧
    tolerance < (i1.GetDimension.get y + i2.GetDimension.get y) / 2 -
      |(i1.position.get y + i1.GetDimension.get y / 2) -
        (i2.position.get y + i2.GetDimension.get y / 2)|

/-- Claim C8: for every pair of placed items, `Intersect` returns true
iff all three axis-pair projections (width,height), (height,depth),
(width,depth) overlap, where a projection overlaps iff on both of its
axes `(d1+d2)/2 − |c1−c2| > 0.01`, with `d` each item's effective
extent and `c` its center (pivot plus half the effective extent). -/
theorem intersect_iff_projections (i1 i2 : Item) :
    i1.Intersect i2 = true ↔
      projectionOverlap i1 i2 .WidthAxis .HeightAxis ∧
        projectionOverlap i1 i2 .HeightAxis .DepthAxis ∧
        projectionOverlap i1 i2 .WidthAxis .DepthAxis := by
  have habs : ∀ a b : ℚ, max a b - min a b = |a - b| := fun a b =>
    (max_sub_min_eq_abs a b).trans (abs_sub_comm b a)
  simp only [Item.Intersect, rectIntersect, Bool.and_eq_true, decide_eq_true_eq,
    projectionOverlap, habs]
  tauto

/-! ### Claim C10: volume utilization has no zero guard -/

/-- Claim C10: `GetVolumeUtilization` returns `UsedVolume * 100 / Volume`
with no guard against a zero divisor, and `NewBin` permits a bin of
zero volume (the model's total `ℚ` division stands in for the
undefined `float64` division by zero). -/
theorem volumeUtilization_no_guard :
    (∀ st b, 0 < (getBin st b).GetVolume →
        GetVolumeUtilization st b = GetUsedVolume st b * 100 / (getBin st b).GetVolume) ∧
      ∃ name w h d mw, (NewBin name w h d mw).GetVolume = 0 := by
  refine ⟨fun st b _ => rfl, "z", 0, 1, 1, 10, ?_⟩
  simp [NewBin, Bin.GetVolume]

def c10WitnessSt : PackerSt :=
  { itemStore := [NewItem "w" 1 1 1 1]
  , binStore := [NewBin "b" 1 2 1 100]
  , bins := [0], pItems := [], unfitItems := [0], fewestBoxes := false }

theorem volumeUtilization_no_guard_witness :
    0 < (getBin c10WitnessSt 0).GetVolume ∧
      GetVolumeUtilization c10WitnessSt 0 =
        GetUsedVolume c10WitnessSt 0 * 100 / (getBin c10WitnessSt 0).GetVolume := by
  have h : 0 < (getBin c10WitnessSt 0).GetVolume := by with_unfolding_all decide
  exact ⟨h, volumeUtilization_no_guard.1 c10WitnessSt 0 h⟩

/-! ### Claim C7: functional characterization of PutItem -/

/-- The claim's containment test: `bin.width ≥ pivot.x + dim.x` and
symmetrically for y and z. -/
def fitsContainment (bn : Bin) (p : Pivot) (d : Dimension) : Bool :=
  decide (p.x + d.x ≤ bn.width) && decide (p.y + d.y ≤ bn.height) &&
    decide (p.z + d.z ≤ bn.depth)

/-- The first rotation, in the fixed order WHD, HWD, HDW, DHW, DWH,
WDH, whose effective dimension satisfies containment at `p`. -/
def firstFittingRotation (bn : Bin) (it : Item) (p : Pivot) : Option RotationType :=
  rotationOrder.find? fun r =>
    fitsContainment bn p ({ it with rotationType := r }).GetDimension

/-- `PutItem` as the claim describes it: select the first
containment-satisfying rotation; if none, fail; otherwise record the
rotation and pivot on the item and test that single rotation against
every occupant, appending on success and failing on any overlap
without trying later rotations. -/
def PutItemSpec (st : PackerSt) (b : BinId) (iid : ItemId) (p : Pivot) :
    PackerSt × Bool :=
  match firstFittingRotation (getBin st b) (getItem st iid) p with
  | none =>
    (setItemSt st iid { getItem st iid with position := p, rotationType := .WDH }, false)
  | some r =>
    let st1 := setItemSt st iid { getItem st iid with position := p, rotationType := r }
    let bn := getBin st b
    if bn.items.all fun ib => !(getItem st1 ib).Intersect (getItem st1 iid) then
      (setBinSt st1 b { bn with items := bn.items ++ [iid] }, true)
    else
      (st1, false)

theorem fitsContainment_false_iff (bn : Bin) (p : Pivot) (d : Dimension) :
    fitsContainment bn p d = false ↔
      bn.width < p.x + d.x ∨ bn.height < p.y + d.y ∨ bn.depth < p.z + d.z := by
  simp only [fitsContainment, Bool.and_eq_false_imp, decide_eq_true_eq,
    decide_eq_false_iff_not, Bool.and_eq_true, ← not_le]
  tauto

theorem GetDimension_ignores_position (it : Item) (p : Pivot) (r : RotationType) :
    ({ it with position := p, rotationType := r } : Item).GetDimension =
      ({ it with rotationType := r } : Item).GetDimension := by
  cases r <;> rfl

/-- The state left behind when every rotation failed containment: the
item holds the last rotation tried. -/
def lastRotSt (st : PackerSt) (iid : ItemId) (rs : List RotationType) : PackerSt :=
  match rs.getLast? with
  | none => st
  | some r => setItemSt st iid { getItem st iid with rotationType := r }

theorem putItemLoop_spec (b : BinId) (iid : ItemId) (p : Pivot) :
    ∀ (rs : List RotationType) (st : PackerSt), iid < st.itemStore.length →
      putItemLoop b iid p st rs =
        match rs.find? (fun r =>
            fitsContainment (getBin st b) p
              ({ getItem st iid with rotationType := r }).GetDimension) with
        | none => (lastRotSt st iid rs, false)
        | some r =>
          let st1 := setItemSt st iid { getItem st iid with rotationType := r }
          if (getBin st b).items.all
              (fun ib => !(getItem st1 ib).Intersect (getItem st1 iid)) then
            (setBinSt st1 b
              { getBin st b with items := (getBin st b).items ++ [iid] }, true)
          else
            (st1, false)
  | [], st, _ => by simp [putItemLoop, lastRotSt]
  | r :: rest, st, h => by
    have h1 : iid < (setItemSt st iid
        { getItem st iid with rotationType := r }).itemStore.length := by
      simpa [length_setItemSt] using h
    have hget : getItem (setItemSt st iid
        { getItem st iid with rotationType := r }) iid =
        { getItem st iid with rotationType := r } := getItem_setItemSt_self h
    by_cases hc : (getBin st b).width < p.x +
          ({ getItem st iid with rotationType := r } : Item).GetDimension.x ∨
        (getBin st b).height < p.y +
          ({ getItem st iid with rotationType := r } : Item).GetDimension.y ∨
        (getBin st b).depth < p.z +
          ({ getItem st iid with rotationType := r } : Item).GetDimension.z
    · -- containment fails for `r`: the loop continues with the mutated state
      have hfit : fitsContainment (getBin st b) p
          ({ getItem st iid with rotationType := r } : Item).GetDimension = false :=
        (fitsContainment_false_iff _ _ _).mpr hc
      have hstep : putItemLoop b iid p st (r :: rest) =
          putItemLoop b iid p
            (setItemSt st iid { getItem st iid with rotationType := r }) rest := by
        simp only [putItemLoop, hget, getBin_setItemSt]
        rw [if_pos hc]
      rw [hstep, putItemLoop_spec b iid p rest _ h1]
      simp only [getBin_setItemSt, hget, setItemSt_setItemSt, List.find?_cons, hfit]
      cases rest with
      | nil => simp [lastRotSt]
      | cons q qs =>
        have hlast : (r :: q :: qs).getLast? = (q :: qs).getLast? := rfl
        cases hfind : (q :: qs).find? (fun r' =>
            fitsContainment (getBin st b) p
              ({ getItem st iid with rotationType := r' }).GetDimension) with
        | none =>
          simp only [lastRotSt, hlast]
          cases hl : (q :: qs).getLast? with
          | none => simp at hl
          | some rl => simp [hget, setItemSt_setItemSt]
        | some rf => simp [hget, setItemSt_setItemSt]
    · -- containment holds for `r`: the overlap check decides the call
      have hfit : ¬ fitsContainment (getBin st b) p
          ({ getItem st iid with rotationType := r } : Item).GetDimension = false := by
        rw [fitsContainment_false_iff]; exact hc
      have hfit' : fitsContainment (getBin st b) p
          ({ getItem st iid with rotationType := r } : Item).GetDimension = true := by
        cases hv : fitsContainment (getBin st b) p
            ({ getItem st iid with rotationType := r } : Item).GetDimension with
        | false => exact absurd hv hfit
        | true => rfl
      simp only [putItemLoop, hget, getBin_setItemSt, List.find?_cons, hfit']
      rw [if_neg hc]

/-- Claim C7: `PutItem` tries the six rotations in the fixed order WHD,
HWD, HDW, DHW, DWH, WDH, checking `bin.width ≥ pivot.x + dim.x` (and
symmetrically for y, z) under each rotation's effective dimension; the
first containment-satisfying rotation is selected, and with it the
pivot is recorded on the item; if that rotation overlaps any existing
occupant the call returns `false` without trying any later rotation;
otherwise the item is appended to the bin's occupant list and the call
returns `true`. -/
theorem putItem_characterization (st : PackerSt) (b : BinId) (iid : ItemId)
    (p : Pivot) (h : iid < st.itemStore.length) :
    PutItem st b iid p = PutItemSpec st b iid p := by
  have h0 : iid < (setItemSt st iid
      { getItem st iid with position := p }).itemStore.length := by
    simpa [length_setItemSt] using h
  have hget : getItem (setItemSt st iid { getItem st iid with position := p }) iid =
      { getItem st iid with position := p } := getItem_setItemSt_self h
  unfold PutItem PutItemSpec firstFittingRotation
  rw [putItemLoop_spec b iid p rotationOrder _ h0]
  have hpred : (fun r => fitsContainment
        (getBin (setItemSt st iid { getItem st iid with position := p }) b) p
        ({ getItem (setItemSt st iid { getItem st iid with position := p }) iid with
            rotationType := r }).GetDimension) =
      (fun r => fitsContainment (getBin st b) p
        ({ getItem st iid with rotationType := r }).GetDimension) := by
    funext r
    rw [hget]
    cases r <;> rfl
  rw [hpred]
  cases hfind : rotationOrder.find? (fun r =>
      fitsContainment (getBin st b) p
        ({ getItem st iid with rotationType := r }).GetDimension) with
  | none => simp [lastRotSt, rotationOrder, hget, setItemSt_setItemSt]
  | some r => simp [getBin_setItemSt, hget, setItemSt_setItemSt]

/-! ### Claim C6: what a failed PutItem mutates -/

theorem pItems_setBinSt {st : PackerSt} {b : BinId} {bn : Bin} :
    (setBinSt st b bn).pItems = st.pItems := rfl

/-- A failed `PutItem` call leaves either the state with just the
pivot written, or the state with the pivot and one rotation written. -/
theorem putItemLoop_fail_state (b : BinId) (iid : ItemId) (p : Pivot) :
    ∀ (rs : List RotationType) (st st' : PackerSt),
      putItemLoop b iid p st rs = (st', false) →
      st' = st ∨ ∃ r, st' = setItemSt st iid { getItem st iid with rotationType := r }
  | [], st, st', h => by
    simp only [putItemLoop, Prod.mk.injEq] at h
    exact Or.inl h.1.symm
  | r :: rest, st, st', h => by
    rw [putItemLoop] at h
    split at h
    · rcases putItemLoop_fail_state b iid p rest _ _ h with h1 | ⟨r', h1⟩
      · exact Or.inr ⟨r, h1⟩
      · by_cases hlen : iid < st.itemStore.length
        · refine Or.inr ⟨r', ?_⟩
          rw [h1, setItemSt_setItemSt, getItem_setItemSt_self hlen]
        · have hset : ∀ it : Item, st.itemStore.set iid it = st.itemStore := fun it =>
            List.set_eq_of_length_le (Nat.le_of_not_lt hlen)
          refine Or.inl ?_
          rw [h1, setItemSt_setItemSt]
          show { st with itemStore := _ } = st
          rw [hset]
    · split at h
      · simp at h
      · simp only [Prod.mk.injEq] at h
        exact Or.inr ⟨r, h.1.symm⟩

/-- Frame property of a failed `PutItem`: only the placed item's
scratch fields can have changed. -/
theorem putItem_fail_frame_aux (st : PackerSt) (b : BinId) (iid : ItemId)
    (p : Pivot) (st' : PackerSt) (hfail : PutItem st b iid p = (st', false)) :
    st'.binStore = st.binStore ∧ st'.bins = st.bins ∧ st'.pItems = st.pItems ∧
      st'.unfitItems = st.unfitItems ∧ st'.fewestBoxes = st.fewestBoxes ∧
      st'.itemStore.length = st.itemStore.length ∧
      (∀ j, j ≠ iid → getItem st' j = getItem st j) ∧
      (getItem st' iid).name = (getItem st iid).name ∧
      (getItem st' iid).width = (getItem st iid).width ∧
      (getItem st' iid).height = (getItem st iid).height ∧
      (getItem st' iid).depth = (getItem st iid).depth ∧
      (getItem st' iid).weight = (getItem st iid).weight := by
  unfold PutItem at hfail
  have base : ∀ (it : Item), st' = setItemSt st iid it →
      (it.name = (getItem st iid).name ∧ it.width = (getItem st iid).width ∧
        it.height = (getItem st iid).height ∧ it.depth = (getItem st iid).depth ∧
        it.weight = (getItem st iid).weight) →
      st'.binStore = st.binStore ∧ st'.bins = st.bins ∧ st'.pItems = st.pItems ∧
        st'.unfitItems = st.unfitItems ∧ st'.fewestBoxes = st.fewestBoxes ∧
        st'.itemStore.length = st.itemStore.length ∧
        (∀ j, j ≠ iid → getItem st' j = getItem st j) ∧
        (getItem st' iid).name = (getItem st iid).name ∧
        (getItem st' iid).width = (getItem st iid).width ∧
        (getItem st' iid).height = (getItem st iid).height ∧
        (getItem st' iid).depth = (getItem st iid).depth ∧
        (getItem st' iid).weight = (getItem st iid).weight := by
    intro it hst hfields
    subst hst
    refine ⟨rfl, rfl, rfl, rfl, rfl, by simp [length_setItemSt], ?_, ?_⟩
    · intro j hj
      exact getItem_setItemSt_ne (fun he => hj he.symm)
    · by_cases hlen : iid < st.itemStore.length
      · rw [getItem_setItemSt_self hlen]
        exact hfields
      · have : st.itemStore.set iid it = st.itemStore :=
          List.set_eq_of_length_le (Nat.le_of_not_lt hlen)
        simp [getItem, setItemSt, this]
  rcases putItemLoop_fail_state b iid p rotationOrder _ _ hfail with h1 | ⟨r, h1⟩
  · exact base _ h1 ⟨rfl, rfl, rfl, rfl, rfl⟩
  · rw [setItemSt_setItemSt] at h1
    by_cases hlen : iid < st.itemStore.length
    · rw [getItem_setItemSt_self hlen] at h1
      exact base _ h1 ⟨rfl, rfl, rfl, rfl, rfl⟩
    · have hset : ∀ it, st.itemStore.set iid it = st.itemStore := fun it =>
        List.set_eq_of_length_le (Nat.le_of_not_lt hlen)
      have h2 : st' = st := by
        rw [h1]; simp [setItemSt, hset]
      subst h2
      exact ⟨rfl, rfl, rfl, rfl, rfl, rfl, fun _ _ => rfl, rfl, rfl, rfl, rfl, rfl⟩

/-! ### Concrete scenarios -/

/-- Claim C1 scenario: one 1×1×1 bin, two 1×1×1 items. -/
def c1St : PackerSt :=
  { itemStore := [NewItem "x" 1 1 1 1, NewItem "y" 1 1 1 1]
  , binStore := [NewBin "b" 1 1 1 100]
  , bins := [0], pItems := [0, 1], unfitItems := [], fewestBoxes := false }

/-- Claim C1 counterexample: with one 1×1×1 bin and two 1×1×1 items
registered, `Pack` returns `ErrInvalidBinsVolume`, not the
`ErrUnfitItemsExist` the claim asserts, and no packing happens. -/
theorem pack_two_unit_items_cex :
    (Pack 100 c1St).map Prod.snd = some (some .ErrInvalidBinsVolume) ∧
      PackError.ErrInvalidBinsVolume ≠ PackError.ErrUnfitItemsExist :=
  ⟨by with_unfolding_all rfl, by decide⟩

/-- Amended claim C1: with one 1×1×1 bin and two 1×1×1 items, the
total item volume (2) exceeds the total bin volume (1), so `Pack`
fails fast with `ErrInvalidBinsVolume`: no item is placed in the bin
and `UnfitItems` stays empty. -/
theorem pack_two_unit_items_invalid_volume :
    (Pack 100 c1St).map (fun r => (r.2, (getBin r.1 0).items, r.1.unfitItems)) =
        some (some .ErrInvalidBinsVolume, [], []) ∧
      binVolumeSumOf c1St c1St.bins < itemVolumeSumOf c1St c1St.pItems :=
  ⟨by with_unfolding_all rfl, by with_unfolding_all decide⟩

/-- Claim C3 failing input: bins 0.2×0.2×0.2 and 1×1×1, items 1×1×1
and 1×1×0.005. -/
def c3St : PackerSt :=
  { itemStore := [NewItem "x" 1 1 1 1, NewItem "y" 1 1 (1/200) 1]
  , binStore := [NewBin "b1" (1/5) (1/5) (1/5) 100, NewBin "b2" 1 1 1 100]
  , bins := [0, 1], pItems := [0, 1], unfitItems := [], fewestBoxes := false }

/-- Claim C3 is violated by the code: on `c3St`, `Pack` succeeds but
leaves item 1 in bin 1's occupant list TWICE (a `FindFittedBin` probe
against the non-empty bin commits the item, and the subsequent
`packToBin` appends it again because the thin item does not intersect
its own copy under the 0.01 tolerance).  Placed occupancies plus unfit
items number 3 while only 2 items were added. -/
theorem pack_conservation_violated :
    (Pack 100 c3St).map
        (fun r => (r.2, (getBin r.1 0).items, (getBin r.1 1).items, r.1.unfitItems)) =
        some (none, [], [0, 1, 1], []) ∧
      (Pack 100 c3St).map
        (fun r => (getBin r.1 0).items.length + (getBin r.1 1).items.length +
          r.1.unfitItems.length) = some 3 ∧
      c3St.pItems.length = 2 :=
  ⟨by with_unfolding_all rfl, by with_unfolding_all rfl, rfl⟩

/-- Claim C6 scenario: a 2×2×2 item at the origin, a 1×1×1 bin, and a
`PutItem` call at pivot (5,0,0) that fails every containment check. -/
def c6St : PackerSt :=
  { itemStore := [NewItem "I" 2 2 2 1]
  , binStore := [NewBin "b" 1 1 1 100]
  , bins := [0], pItems := [0], unfitItems := [], fewestBoxes := false }

/-- The state `c6St` is left in by the failing call
`PutItem c6St 0 0 (5,0,0)`. -/
def c6PostSt : PackerSt :=
  { itemStore := [⟨"I", 2, 2, 2, 1, .WDH, ⟨5, 0, 0⟩⟩]
  , binStore := [NewBin "b" 1 1 1 100]
  , bins := [0], pItems := [0], unfitItems := [], fewestBoxes := false }

/-- Claim C6 counterexample: this `PutItem` call returns `false`, yet
the item's recorded `Position` after the call is the pivot (5,0,0),
not the (0,0,0) it held before the call — the claim that the position
is unchanged on failure is false. -/
theorem putItem_fail_mutates_position :
    (PutItem c6St 0 0 ⟨5, 0, 0⟩).2 = false ∧
      (getItem (PutItem c6St 0 0 ⟨5, 0, 0⟩).1 0).position = ⟨5, 0, 0⟩ ∧
      (getItem c6St 0).position = ⟨0, 0, 0⟩ ∧
      (⟨5, 0, 0⟩ : Pivot) ≠ (⟨0, 0, 0⟩ : Pivot) :=
  ⟨by with_unfolding_all rfl, by with_unfolding_all rfl, rfl,
    by with_unfolding_all decide⟩

/-- Amended claim C6: whenever `PutItem` returns `false`, nothing has
mutated except the item's transient rotation AND position fields: the
bin store (hence every bin's occupant list), the packer lists, every
other item, and the item's own name, dimensions and weight are
unchanged.  (The original claim asserted the position is unchanged as
well; `PutItem` writes the pivot into the item before trying any
rotation, so the position is clobbered even on failure.) -/
theorem putItem_fail_frame (st : PackerSt) (b : BinId) (iid : ItemId)
    (p : Pivot) (st' : PackerSt) (hfail : PutItem st b iid p = (st', false)) :
    st'.binStore = st.binStore ∧ st'.bins = st.bins ∧ st'.pItems = st.pItems ∧
      st'.unfitItems = st.unfitItems ∧ st'.fewestBoxes = st.fewestBoxes ∧
      st'.itemStore.length = st.itemStore.length ∧
      (∀ j, j ≠ iid → getItem st' j = getItem st j) ∧
      (getItem st' iid).name = (getItem st iid).name ∧
      (getItem st' iid).width = (getItem st iid).width ∧
      (getItem st' iid).height = (getItem st iid).height ∧
      (getItem st' iid).depth = (getItem st iid).depth ∧
      (getItem st' iid).weight = (getItem st iid).weight :=
  putItem_fail_frame_aux st b iid p st' hfail

theorem putItem_fail_frame_witness :
    c6PostSt.binStore = c6St.binStore ∧ c6PostSt.bins = c6St.bins ∧
      c6PostSt.pItems = c6St.pItems ∧ c6PostSt.unfitItems = c6St.unfitItems ∧
      c6PostSt.fewestBoxes = c6St.fewestBoxes ∧
      c6PostSt.itemStore.length = c6St.itemStore.length ∧
      (∀ j, j ≠ 0 → getItem c6PostSt j = getItem c6St j) ∧
      (getItem c6PostSt 0).name = (getItem c6St 0).name ∧
      (getItem c6PostSt 0).width = (getItem c6St 0).width ∧
      (getItem c6PostSt 0).height = (getItem c6St 0).height ∧
      (getItem c6PostSt 0).depth = (getItem c6St 0).depth ∧
      (getItem c6PostSt 0).weight = (getItem c6St 0).weight :=
  putItem_fail_frame c6St 0 0 ⟨5, 0, 0⟩ c6PostSt (by with_unfolding_all rfl)

theorem putItem_characterization_witness :
    PutItem c6St 0 0 ⟨5, 0, 0⟩ = PutItemSpec c6St 0 0 ⟨5, 0, 0⟩ :=
  putItem_characterization c6St 0 0 ⟨5, 0, 0⟩ (by decide)

/-! ### Claim C4: what packToBin returns -/

theorem putItemLoop_pItems (b : BinId) (iid : ItemId) (p : Pivot) :
    ∀ (rs : List RotationType) (st : PackerSt),
      ((putItemLoop b iid p st rs).1).pItems = st.pItems
  | [], st => rfl
  | r :: rest, st => by
    rw [putItemLoop]
    split
    · rw [putItemLoop_pItems b iid p rest _]
      rfl
    · split <;> rfl

theorem putItem_pItems (st : PackerSt) (b : BinId) (iid : ItemId) (p : Pivot) :
    ((PutItem st b iid p).1).pItems = st.pItems := by
  unfold PutItem
  rw [putItemLoop_pItems]
  rfl

/-- The accumulator discipline of the `items[1:]` loop: the returned
`unpacked` list is the accumulator followed by a sublist of the
pending items. -/
theorem packItems_unpacked :
    ∀ (fuel : Nat) (st : PackerSt) (b : BinId) (pending acc : List ItemId)
      (st' : PackerSt) (left : List ItemId),
      packItems fuel st b pending acc = some (st', left) →
      ∃ s, s.Sublist pending ∧ left = acc ++ s
  | 0, st, b, pending, acc, st', left, h => by simp [packItems] at h
  | fuel + 1, st, b, [], acc, st', left, h => by
    simp only [packItems, Option.some.injEq, Prod.mk.injEq] at h
    exact ⟨[], List.nil_sublist _, by rw [← h.2, List.append_nil]⟩
  | fuel + 1, st, b, i :: rest, acc, st', left, h => by
    rw [packItems] at h
    split at h
    · rcases packItems_unpacked fuel _ b rest acc st' left h with ⟨s, hs, hl⟩
      exact ⟨s, hs.cons i, hl⟩
    · split at h
      · simp at h
      · rcases packItems_unpacked fuel _ _ rest acc st' left h with ⟨s, hs, hl⟩
        exact ⟨s, hs.cons i, hl⟩
      · rcases packItems_unpacked fuel _ _ rest (acc ++ [i]) st' left h with ⟨s, hs, hl⟩
        exact ⟨i :: s, hs.cons₂ i, by rw [hl, List.append_assoc, List.singleton_append]⟩

/-- Amended claim C4: `packToBin b items` returns either a sublist of
its `items` argument (the members that could not be placed along the
chain), or — when `items[0]` cannot be placed at the origin of any bin
of the escalation chain — the packer's entire pending list `p.Items`,
which need not be related to `items` at all. -/
theorem packToBin_unpacked :
    ∀ (fuel : Nat) (st : PackerSt) (b : BinId) (items : List ItemId)
      (st' : PackerSt) (left : List ItemId),
      packToBin fuel st b items = some (st', left) →
      left.Sublist items ∨ left = st.pItems
  | 0, st, b, items, st', left, h => by simp [packToBin] at h
  | fuel + 1, st, b, [], st', left, h => by simp [packToBin] at h
  | fuel + 1, st, b, i0 :: rest, st', left, h => by
    rw [packToBin] at h
    split at h
    case _ st1 hput =>
      split at h
      case _ b2 _ =>
        rcases packToBin_unpacked fuel st1 b2 (i0 :: rest) st' left h with h1 | h1
        · exact Or.inl h1
        · refine Or.inr ?_
          rw [h1]
          have := putItem_pItems st b i0 startPosition
          rw [hput] at this
          exact this
      case _ _ =>
        simp only [Option.some.injEq, Prod.mk.injEq] at h
        refine Or.inr ?_
        rw [← h.2]
        have := putItem_pItems st b i0 startPosition
        rw [hput] at this
        exact this
    case _ st1 hput =>
      rcases packItems_unpacked fuel st1 b rest [] st' left h with ⟨s, hs, hl⟩
      rw [hl, List.nil_append]
      exact Or.inl (hs.cons i0)

/-- Claim C4 scenario: the packer's pending list is `[0]` (item "w"),
while `packToBin` is called on the unrelated argument `[1]` (the
oversized item "big", which fits nowhere). -/
def c4St : PackerSt :=
  { itemStore := [NewItem "w" 1 1 1 1, NewItem "big" 2 2 2 1]
  , binStore := [NewBin "b" 1 1 1 100]
  , bins := [0], pItems := [0], unfitItems := [], fewestBoxes := false }

/-- The state left by `packToBin 10 c4St 0 [1]` (item 1 holds the last
rotation tried by the failed origin placement). -/
def c4PostSt : PackerSt :=
  { itemStore := [NewItem "w" 1 1 1 1, ⟨"big", 2, 2, 2, 1, .WDH, ⟨0, 0, 0⟩⟩]
  , binStore := [NewBin "b" 1 1 1 100]
  , bins := [0], pItems := [0], unfitItems := [], fewestBoxes := false }

/-- Claim C4 counterexample: `packToBin` on the item list `[1]` returns
`[0]` — the packer's pending list — which is not a sublist of the
`items` argument (item 0 is not even a member of it). -/
theorem packToBin_not_sublist_cex :
    (packToBin 10 c4St 0 [1]).map Prod.snd = some [0] ∧
      ¬ ([0] : List ItemId).Sublist [1] := by
  refine ⟨by with_unfolding_all rfl, fun h => ?_⟩
  have h0 : (0 : ItemId) ∈ [1] := h.subset (by simp)
  simp at h0

theorem packToBin_unpacked_witness :
    ([0] : List ItemId).Sublist [1] ∨ ([0] : List ItemId) = c4St.pItems :=
  packToBin_unpacked 10 c4St 0 [1] c4PostSt [0] (by with_unfolding_all rfl)

/-! ### Claim C5: the pivot candidates -/

/-- The pivot the claim describes: the occupant's far edge under its
placed (rotation-applied) extent `GetDimension`. -/
def pivotCandidateClaim (st : PackerSt) (pt : Axis) (ib : ItemId) : Pivot :=
  let it := getItem st ib
  let d := it.GetDimension
  match pt with
  | .WidthAxis => ⟨it.position.x + d.x, it.position.y, it.position.z⟩
  | .HeightAxis => ⟨it.position.x, it.position.y + d.y, it.position.z⟩
  | .DepthAxis => ⟨it.position.x, it.position.y, it.position.z + d.z⟩

/-- The candidate sequence the code tries: axis-major (all occupants
along +x, then all along +y, then all along +z), each offset by the
occupant's intrinsic Width/Height/Depth. -/
def pivotCandidatesCode (st : PackerSt) (occ : List ItemId) : List Pivot :=
  occ.map (pivotCandidate st .WidthAxis) ++ occ.map (pivotCandidate st .HeightAxis) ++
    occ.map (pivotCandidate st .DepthAxis)

/-- The candidate sequence the claim describes: occupant-major
(per occupant the +x, +y, +z pivots in turn), each offset by the
occupant's rotation-applied effective extent. -/
def pivotCandidatesClaim (st : PackerSt) : List ItemId → List Pivot
  | [] => []
  | ib :: rest =>
    pivotCandidateClaim st .WidthAxis ib :: pivotCandidateClaim st .HeightAxis ib ::
      pivotCandidateClaim st .DepthAxis ib :: pivotCandidatesClaim st rest

/-- First-success trial of a precomputed pivot list. -/
def tryCandidates (b : BinId) (i : ItemId) : PackerSt → List Pivot → PackerSt × Bool
  | st, [] => (st, false)
  | st, pv :: ps =>
    match PutItem st b i pv with
    | (st1, true) => (st1, true)
    | (st1, false) => tryCandidates b i st1 ps

theorem getBin_eq_of_binStore {st st' : PackerSt} (h : st'.binStore = st.binStore)
    (b : BinId) : getBin st' b = getBin st b := by
  simp [getBin, h]

theorem pivotCandidate_congr {st st' : PackerSt} {i ib : ItemId}
    (hpres : ∀ j, j ≠ i → getItem st' j = getItem st j) (hne : ib ≠ i) (pt : Axis) :
    pivotCandidate st' pt ib = pivotCandidate st pt ib := by
  unfold pivotCandidate
  rw [hpres ib hne]

theorem tryAxis_eq (b : BinId) (i : ItemId) (pt : Axis) :
    ∀ (occ : List ItemId) (st : PackerSt), i ∉ occ →
      tryAxis b i pt st occ = tryCandidates b i st (occ.map (pivotCandidate st pt))
  | [], st, _ => rfl
  | ib :: rest, st, hnotin => by
    have hne : i ∉ rest := fun hm => hnotin (List.mem_cons_of_mem ib hm)
    rw [tryAxis, List.map_cons, tryCandidates]
    cases hput : PutItem st b i (pivotCandidate st pt ib) with
    | mk st1 ok =>
      cases ok with
      | true => rfl
      | false =>
        have hmap : rest.map (pivotCandidate st1 pt) = rest.map (pivotCandidate st pt) := by
          refine List.map_congr_left fun ib' hib' => ?_
          have hne' : ib' ≠ i := fun he => hne (he ▸ hib')
          exact pivotCandidate_congr
            (putItem_fail_frame_aux st b i (pivotCandidate st pt ib) st1 hput).2.2.2.2.2.2.1
            hne' pt
        show tryAxis b i pt st1 rest =
          tryCandidates b i st1 (rest.map (pivotCandidate st pt))
        rw [tryAxis_eq b i pt rest st1 hne, hmap]

theorem tryAxis_fail_frame (b : BinId) (i : ItemId) (pt : Axis) :
    ∀ (occ : List ItemId) (st st' : PackerSt),
      tryAxis b i pt st occ = (st', false) →
      st'.binStore = st.binStore ∧ (∀ j, j ≠ i → getItem st' j = getItem st j)
  | [], st, st', h => by
    simp only [tryAxis, Prod.mk.injEq] at h
    rw [← h.1]
    exact ⟨rfl, fun _ _ => rfl⟩
  | ib :: rest, st, st', h => by
    rw [tryAxis] at h
    split at h
    case _ st1 heq => simp at h
    case _ st1 heq =>
      obtain ⟨hb1, hi1⟩ := tryAxis_fail_frame b i pt rest st1 st' h
      have hf := putItem_fail_frame_aux st b i (pivotCandidate st pt ib) st1 heq
      exact ⟨hb1.trans hf.1, fun j hj => (hi1 j hj).trans (hf.2.2.2.2.2.2.1 j hj)⟩

theorem tryCandidates_append (b : BinId) (i : ItemId) :
    ∀ (l1 l2 : List Pivot) (st : PackerSt),
      tryCandidates b i st (l1 ++ l2) =
        match tryCandidates b i st l1 with
        | (st1, true) => (st1, true)
        | (st1, false) => tryCandidates b i st1 l2
  | [], l2, st => rfl
  | pv :: l1, l2, st => by
    rw [List.cons_append, tryCandidates, tryCandidates]
    cases hput : PutItem st b i pv with
    | mk st1 ok =>
      cases ok with
      | true => rfl
      | false =>
        show tryCandidates b i st1 (l1 ++ l2) = _
        exact tryCandidates_append b i l1 l2 st1

/-- Amended claim C5: when `packToBin` places a subsequent item `i`,
the pivot search tries, for each axis +x, +y, +z in that order, the
candidates generated from every already-packed occupant of the current
bin in list order, each candidate sitting at the occupant's position
offset by the occupant's INTRINSIC Width/Height/Depth on that axis
(not the rotation-applied extent), accepting the first `PutItem`
success.  (The original claim asserted occupant-then-axis order and
rotation-applied extents.) -/
theorem tryPivots_characterization (st : PackerSt) (b : BinId) (i : ItemId)
    (hnotin : i ∉ (getBin st b).items) :
    tryPivots b i st axisOrder =
      tryCandidates b i st (pivotCandidatesCode st (getBin st b).items) := by
  unfold pivotCandidatesCode
  rw [tryCandidates_append b i (_ ++ _) _ st, tryCandidates_append b i _ _ st,
    ← tryAxis_eq b i .WidthAxis _ st hnotin]
  show (match tryAxis b i .WidthAxis st (getBin st b).items with
      | (st1, true) => (st1, true)
      | (st1, false) => tryPivots b i st1 [.HeightAxis, .DepthAxis]) = _
  cases h1 : tryAxis b i .WidthAxis st (getBin st b).items with
  | mk st1 ok1 =>
    cases ok1 with
    | true => rfl
    | false =>
      obtain ⟨hb1, hi1⟩ := tryAxis_fail_frame b i .WidthAxis _ st st1 h1
      have hocc1 : getBin st1 b = getBin st b := getBin_eq_of_binStore hb1 b
      have hnotin1 : i ∉ (getBin st1 b).items := by rw [hocc1]; exact hnotin
      have hmap1 : (getBin st b).items.map (pivotCandidate st .HeightAxis) =
          (getBin st1 b).items.map (pivotCandidate st1 .HeightAxis) := by
        rw [hocc1]
        exact (List.map_congr_left fun ib' hib' =>
          pivotCandidate_congr hi1 (fun he => hnotin (he ▸ hib')) _).symm
      show tryPivots b i st1 [.HeightAxis, .DepthAxis] =
        (match tryCandidates b i st1
            ((getBin st b).items.map (pivotCandidate st .HeightAxis)) with
          | (st2, true) => (st2, true)
          | (st2, false) => tryCandidates b i st2
              ((getBin st b).items.map (pivotCandidate st .DepthAxis)))
      rw [hmap1, ← tryAxis_eq b i .HeightAxis _ st1 hnotin1]
      show (match tryAxis b i .HeightAxis st1 (getBin st1 b).items with
          | (st2, true) => (st2, true)
          | (st2, false) => tryPivots b i st2 [.DepthAxis]) = _
      cases h2 : tryAxis b i .HeightAxis st1 (getBin st1 b).items with
      | mk st2 ok2 =>
        cases ok2 with
        | true => rfl
        | false =>
          obtain ⟨hb2, hi2⟩ := tryAxis_fail_frame b i .HeightAxis _ st1 st2 h2
          have hocc2 : getBin st2 b = getBin st1 b := getBin_eq_of_binStore hb2 b
          have hnotin2 : i ∉ (getBin st2 b).items := by rw [hocc2]; exact hnotin1
          have hmap2 : (getBin st b).items.map (pivotCandidate st .DepthAxis) =
              (getBin st2 b).items.map (pivotCandidate st2 .DepthAxis) := by
            rw [hocc2, hocc1]
            exact (List.map_congr_left fun ib' hib' => by
              have hne' : ib' ≠ i := fun he => hnotin (he ▸ hib')
              rw [pivotCandidate_congr hi2 hne' _, pivotCandidate_congr hi1 hne' _]).symm
          show tryPivots b i st2 [.DepthAxis] =
            tryCandidates b i st2 ((getBin st b).items.map (pivotCandidate st .DepthAxis))
          rw [hmap2, ← tryAxis_eq b i .DepthAxis _ st2 hnotin2]
          show (match tryAxis b i .DepthAxis st2 (getBin st2 b).items with
              | (st3, true) => (st3, true)
              | (st3, false) => tryPivots b i st3 []) = _
          cases h3 : tryAxis b i .DepthAxis st2 (getBin st2 b).items with
          | mk st3 ok3 =>
            cases ok3 with
            | true => rfl
            | false => rfl

/-- Claim C5 scenario: a 2×4×1 bin with items 4×1×1 (which only fits
rotated, as HWD) and 1×1×1. -/
def c5St : PackerSt :=
  { itemStore := [NewItem "A" 4 1 1 1, NewItem "B" 1 1 1 1]
  , binStore := [NewBin "b" 2 4 1 100]
  , bins := [0], pItems := [0, 1], unfitItems := [], fewestBoxes := false }

/-- The state left by `packToBin 20 c5St 0 [0, 1]`: item A packed at
the origin with rotation HWD, item B unplaced (its scratch fields hold
the last failed attempt). -/
def c5PostSt : PackerSt :=
  { itemStore := [⟨"A", 4, 1, 1, 1, .HWD, ⟨0, 0, 0⟩⟩, ⟨"B", 1, 1, 1, 1, .WDH, ⟨0, 0, 1⟩⟩]
  , binStore := [⟨"b", 2, 4, 1, 100, [0]⟩]
  , bins := [0], pItems := [0, 1], unfitItems := [], fewestBoxes := false }

/-- Claim C5 counterexample: the run packs occupant A rotated (HWD,
effective extent (1,4,1)) and fails to place B, because the candidate
pivots are computed from A's INTRINSIC width 4 — (4,0,0) — in
axis-major order; under the claim's rotation-applied extents the first
candidate would be (1,0,0), the candidate lists differ, and `PutItem`
at the claim's candidate (1,0,0) would in fact succeed. -/
theorem pivotCandidates_intrinsic_cex :
    packToBin 20 c5St 0 [0, 1] = some (c5PostSt, [1]) ∧
      (getItem c5PostSt 0).rotationType = .HWD ∧
      pivotCandidatesCode c5PostSt [0] ≠ pivotCandidatesClaim c5PostSt [0] ∧
      (PutItem c5PostSt 0 1 (pivotCandidateClaim c5PostSt .WidthAxis 0)).2 = true :=
  ⟨by with_unfolding_all rfl, rfl, by with_unfolding_all decide,
    by with_unfolding_all rfl⟩

/-- Mid-run state for the witness: occupant A (rotated) is packed, B
is about to be placed. -/
def c5MidSt : PackerSt :=
  { itemStore := [⟨"A", 4, 1, 1, 1, .HWD, ⟨0, 0, 0⟩⟩, NewItem "B" 1 1 1 1]
  , binStore := [⟨"b", 2, 4, 1, 100, [0]⟩]
  , bins := [0], pItems := [0, 1], unfitItems := [], fewestBoxes := false }

theorem tryPivots_characterization_witness :
    tryPivots 0 1 c5MidSt axisOrder =
      tryCandidates 0 1 c5MidSt (pivotCandidatesCode c5MidSt (getBin c5MidSt 0).items) :=
  tryPivots_characterization c5MidSt 0 1 (by with_unfolding_all decide)

/-! ### Claim C9: the first FewestBoxes phase -/

/-- One pass of the phase as the claim words it: every bin in order
whose volume is at least the CURRENT total volume of the remaining
items (recomputed at the moment the bin is considered). -/
def fewestFirstPassClaimStep (fuel : Nat) : PackerSt → List BinId → Option PackerSt
  | st, [] => some st
  | st, b :: rest =>
    if st.pItems ≠ [] ∧ itemVolumeSumOf st st.pItems ≤ (getBin st b).GetVolume then
      match packToBin fuel st b st.pItems with
      | none => none
      | some (st1, left) => fewestFirstPassClaimStep fuel { st1 with pItems := left } rest
    else
      fewestFirstPassClaimStep fuel st rest

/-- The first FewestBoxes phase as claim C9 words it: repeat passes
until no bin's volume reaches the current remaining item volume or no
items remain. -/
def fewestFirstPassClaim (fuel : Nat) (st : PackerSt) : Option PackerSt :=
  match fuel with
  | 0 => none
  | fuel + 1 =>
    if st.pItems = [] ∨ ¬ st.bins.any
        (fun b => decide (itemVolumeSumOf st st.pItems ≤ (getBin st b).GetVolume)) then
      some st
    else
      match fewestFirstPassClaimStep fuel st st.bins with
      | none => none
      | some st1 => fewestFirstPassClaim fuel st1

/-- Claim C9 scenario: bins 1×1×1 (volume 1) and 2×2×2.5 (volume 10),
items 2×2×2 (volume 8) and 1×1×1 (volume 1); both lists are already in
the order `Pack`'s sorting produces. -/
def c9St : PackerSt :=
  { itemStore := [NewItem "i1" 2 2 2 1, NewItem "i2" 1 1 1 1]
  , binStore := [NewBin "bs" 1 1 1 100, NewBin "bb" 2 2 (5/2) 100]
  , bins := [0, 1], pItems := [0, 1], unfitItems := [], fewestBoxes := true }

/-- Claim C9 counterexample: on `c9St` the code's first phase — which
compares every bin against the item volume sum computed once before
the loop, in a single pass — skips the small bin and leaves item 1
pending, whereas the claimed phase (current remaining volume, repeated
until no bin qualifies) would pack item 1 into the small bin.  The two
sort functions fix that `Pack` hands the phase exactly this state. -/
theorem fewestFirstPass_stale_sum_cex :
    (fewestFirstPass 50 (itemVolumeSumOf c9St c9St.pItems) c9St c9St.bins).map
        (fun s => (s.pItems, (getBin s 0).items, (getBin s 1).items)) =
        some ([1], [], [0]) ∧
      (fewestFirstPassClaim 50 c9St).map
        (fun s => (s.pItems, (getBin s 0).items, (getBin s 1).items)) =
        some ([], [1], [0]) ∧
      sortBinsAsc c9St c9St.bins = c9St.bins ∧
      sortItemsDesc c9St c9St.pItems = c9St.pItems :=
  ⟨by with_unfolding_all rfl, by with_unfolding_all rfl,
    by with_unfolding_all rfl, by with_unfolding_all rfl⟩

/-- Amended claim C9: the first phase, worded as the code has it — a
single monadic fold over the bins in ascending-volume order, entering
a bin iff that bin's volume is at least the item volume sum `ivs`
computed before the phase started AND items remain at that moment. -/
def fewestFirstPassAmended (fuel : Nat) (ivs : ℚ) (st : PackerSt)
    (bins : List BinId) : Option PackerSt :=
  bins.foldlM
    (fun s b =>
      if ivs ≤ (getBin s b).GetVolume ∧ s.pItems ≠ [] then
        (packToBin fuel s b s.pItems).map fun r => { r.1 with pItems := r.2 }
      else
        pure s)
    st

/-- Amended claim C9: when `FewestBoxes` is set, the first phase of
`Pack` attempts `packToBin` on every bin taken in ascending-volume
order, in one single pass, entering a bin iff its volume is at least
the item volume sum computed once before the phase (the sum is NOT
recomputed as items are placed, and the pass is not repeated) and
items remain at the moment that bin is considered. -/
theorem fewestFirstPass_single_pass :
    ∀ (bins : List BinId) (fuel : Nat) (ivs : ℚ) (st : PackerSt),
      fewestFirstPass fuel ivs st bins = fewestFirstPassAmended fuel ivs st bins
  | [], fuel, ivs, st => rfl
  | b :: rest, fuel, ivs, st => by
    rw [fewestFirstPass, fewestFirstPassAmended, List.foldlM_cons]
    split
    · cases hpack : packToBin fuel st b st.pItems with
      | none => rfl
      | some r =>
        obtain ⟨st1, left⟩ := r
        show fewestFirstPass fuel ivs { st1 with pItems := left } rest = _
        rw [fewestFirstPass_single_pass rest fuel ivs { st1 with pItems := left }]
        rfl
    · rw [fewestFirstPass_single_pass rest fuel ivs st]
      rfl

/-! ### Claim C2: Pack does not always terminate -/

/-- Claim C2 failing input: `FewestBoxes` set, bins 0.01×0.01×0.01 and
1×0.01×1, one item 2×0.001×2 (positive dimensions and weights, and
volume-feasible, but geometrically unfittable: two extents of 2 exceed
every bin dimension). -/
def c2St : PackerSt :=
  { itemStore := [NewItem "i" 2 (1/1000) 2 1]
  , binStore := [NewBin "b1" (1/100) (1/100) (1/100) 100, NewBin "b2" 1 (1/100) 1 100]
  , bins := [0, 1], pItems := [0], unfitItems := [], fewestBoxes := true }

/-- The state at entry to the second `FewestBoxes` loop: identical to
`c2St` except that the failed origin trials have left rotation WDH on
the item.  The loop maps this state to itself. -/
def c2StWDH : PackerSt :=
  { itemStore := [⟨"i", 2, 1/1000, 2, 1, .WDH, ⟨0, 0, 0⟩⟩]
  , binStore := [NewBin "b1" (1/100) (1/100) (1/100) 100, NewBin "b2" 1 (1/100) 1 100]
  , bins := [0, 1], pItems := [0], unfitItems := [], fewestBoxes := true }

theorem c2_put0 : PutItem c2StWDH 0 0 startPosition = (c2StWDH, false) := by
  with_unfolding_all rfl

theorem c2_put1 : PutItem c2StWDH 1 0 startPosition = (c2StWDH, false) := by
  with_unfolding_all rfl

theorem c2_big0 : getBiggerBinThan c2StWDH 0 = some 1 := by with_unfolding_all rfl

theorem c2_big1 : getBiggerBinThan c2StWDH 1 = none := by with_unfolding_all rfl

theorem c2_find : findBestBin c2StWDH (itemVolumeSumOf c2StWDH [0])
    c2StWDH.bins 0 none = some 0 := by with_unfolding_all rfl

theorem c2_packBin1 (k : Nat) : packToBin (k + 1) c2StWDH 1 [0] = some (c2StWDH, [0]) := by
  conv_lhs => rw [packToBin]
  simp only [c2_put1, c2_big1]
  rfl

theorem c2_packBin0 (k : Nat) : packToBin (k + 2) c2StWDH 0 [0] = some (c2StWDH, [0]) := by
  show packToBin ((k + 1) + 1) c2StWDH 0 [0] = some (c2StWDH, [0])
  conv_lhs => rw [packToBin]
  simp only [c2_put0, c2_big0]
  exact c2_packBin1 k

/-- One iteration of the best-fit loop from `c2StWDH` returns to
`c2StWDH` itself: the loop makes no progress. -/
theorem fewestBestFit_c2_step (k : Nat) :
    fewestBestFitLoop (k + 3) c2StWDH = fewestBestFitLoop (k + 2) c2StWDH := by
  show fewestBestFitLoop ((k + 2) + 1) c2StWDH = fewestBestFitLoop (k + 2) c2StWDH
  conv_lhs => rw [fewestBestFitLoop]
  simp only [show c2StWDH.pItems = [0] from rfl, List.cons_ne_nil, c2_find, c2_packBin0]
  rfl

theorem fewestBestFit_c2_none : ∀ fuel, fewestBestFitLoop fuel c2StWDH = none := by
  intro fuel
  induction fuel using Nat.strong_induction_on with
  | _ fuel ih =>
    match fuel with
    | 0 => rfl
    | 1 => with_unfolding_all rfl
    | 2 => with_unfolding_all rfl
    | (k + 3) =>
      rw [fewestBestFit_c2_step k]
      exact ih (k + 2) (by omega)

theorem c2_put1s : PutItem c2St 1 0 startPosition = (c2StWDH, false) := by
  with_unfolding_all rfl

theorem c2_packBin1s (k : Nat) : packToBin (k + 1) c2St 1 [0] = some (c2StWDH, [0]) := by
  conv_lhs => rw [packToBin]
  simp only [c2_put1s, c2_big1]
  rfl

set_option maxRecDepth 4000 in
theorem pack_eq_phases_c2 (f : Nat) :
    Pack f c2St = packPhases f c2St (itemVolumeSumOf c2St [0]) := by
  with_unfolding_all rfl

theorem c2_phase1 (f : Nat) :
    fewestFirstPass (f + 1) (itemVolumeSumOf c2St [0]) c2St c2St.bins = some c2StWDH := by
  show fewestFirstPass (f + 1) (itemVolumeSumOf c2St [0]) c2St [0, 1] = some c2StWDH
  rw [fewestFirstPass]
  rw [if_neg (by with_unfolding_all decide :
    ¬ (itemVolumeSumOf c2St [0] ≤ (getBin c2St 0).GetVolume ∧ c2St.pItems ≠ []))]
  rw [fewestFirstPass]
  rw [if_pos (by with_unfolding_all decide :
    itemVolumeSumOf c2St [0] ≤ (getBin c2St 1).GetVolume ∧ c2St.pItems ≠ [])]
  simp only [show c2St.pItems = [0] from rfl, c2_packBin1s f]
  rfl

/-- Claim C2 is violated by the code: on `c2St`, `Pack` runs forever —
for EVERY fuel bound the fuel interpreter fails to finish.  The first
`FewestBoxes` loop leaves the state `c2StWDH`; the second (best-fit)
loop then selects bin 0 (available volume 10⁻⁶, which lies below the
needed 1/250), `packToBin` fails the origin placement in bin 0 and in
the escalation bin 1, returns the pending list `p.Items` unchanged,
and the loop repeats from the identical state forever. -/
theorem pack_nonterminating : ∀ fuel, Pack fuel c2St = none
  | 0 => by with_unfolding_all rfl
  | (f + 1) => by
    rw [pack_eq_phases_c2 (f + 1)]
    rw [packPhases]
    simp only [show c2St.fewestBoxes = true from rfl, if_pos, c2_phase1 f,
      fewestBestFit_c2_none]

end BP3D
